import Mathlib

/-!
Verification of the core request-handling logic of a small HTTP server
written in Rust (src/src/main.rs).  The pure computational core —
`parse_request_with_body`, `route_request`, `serve_file`, `handle_post`
and `get_mime_type` — is shallowly embedded below.

Modelling conventions:
* Rust `&str` / `String` values become Lean `String`; where the Rust code
  iterates over characters or byte positions we work on `String.toList`
  (every helper below is structural so that concrete inputs evaluate in
  the kernel; `split_whitespace` keeps the full Unicode White_Space set
  via `rustIsWhitespace`).
* Rust `str::len` counts bytes, so it is modelled by `String.utf8ByteSize`.
* The `HashMap<String, String>` of headers becomes an association list
  with an insert operation that overwrites an existing key
  (last-write-wins), and an exact, case-sensitive lookup — matching
  `HashMap::insert` / `HashMap::get` used by the source.
* Each handler in the source builds its response with
  `format!("HTTP/1.1 {status} {reason}\r\nContent-Type: {ct}\r\nContent-Length: {n}\r\n\r\n{body}")`.
  That fixed shape is factored into a `Response` record holding exactly
  the five interpolated values, plus `Response.render` producing the wire
  string; every handler below fills the record with precisely the values
  the corresponding `format!` call interpolates.  In particular
  `content_length` holds the number the code writes into the header,
  which is not always the length of `body`.
* The only effect in the core is `fs::read_to_string`; it is modelled by
  an explicit parameter `fs : String → Option String` (`some` = the read
  succeeded with the given text, `none` = any failure: the source matches
  `Err(_)` without inspecting the cause).
-/

/-- Header map: association list standing for the `HashMap<String, String>`
of the source. -/
abbrev HeaderMap := List (String × String)

/-- Models `HashMap::insert`: overwrite any existing binding of the key. -/
def hmInsert (m : HeaderMap) (k v : String) : HeaderMap :=
  (k, v) :: m.filter (fun p => p.1 ≠ k)

/-- Models `HashMap::get`: exact, case-sensitive lookup. -/
def hmGet (m : HeaderMap) (k : String) : Option String :=
  (m.find? (fun p => p.1 == k)).map (fun p => p.2)

/-- The parsed request `(method, path, headers, body)` returned by
`parse_request_with_body`. -/
structure Request where
  method : String
  path : String
  headers : HeaderMap
  body : String
deriving DecidableEq, Repr

/-- One HTTP response, the five values every `format!` call in the source
interpolates into the fixed response template.  `content_length` is the
number written into the `Content-Length` header by the code, recorded
separately from `body` because the source computes it independently. -/
structure Response where
  code : Nat
  reason : String
  content_type : String
  content_length : Nat
  body : String
deriving DecidableEq, Repr

/-- The wire string every `format!` call in the source produces:
`HTTP/1.1 <code> <reason>\r\nContent-Type: <ct>\r\nContent-Length: <n>\r\n\r\n<body>`. -/
def Response.render (r : Response) : String :=
  "HTTP/1.1 " ++ toString r.code ++ " " ++ r.reason ++
  "\r\nContent-Type: " ++ r.content_type ++
  "\r\nContent-Length: " ++ toString r.content_length ++
  "\r\n\r\n" ++ r.body

/-- Split a character list at every character satisfying `p`
(separators are dropped; `n` separators yield `n + 1` pieces). -/
def splitOnPred (p : Char → Bool) : List Char → List (List Char)
  | [] => [[]]
  | c :: cs =>
    if p c then
      [] :: splitOnPred p cs
    else
      match splitOnPred p cs with
      | [] => [[c]]
      | y :: ys => (c :: y) :: ys

/-- Split at every occurrence of the character `c`. -/
def splitOnChar (c : Char) (l : List Char) : List (List Char) :=
  splitOnPred (fun x => x == c) l

/-- Rust `char::is_whitespace`: the Unicode White_Space property —
U+0009..U+000D (tab, LF, VT, FF, CR), U+0020 (space), U+0085 (NEL),
U+00A0 (NBSP), U+1680 (ogham space mark), U+2000..U+200A (typographic
spaces), U+2028 (line separator), U+2029 (paragraph separator),
U+202F (narrow NBSP), U+205F (medium mathematical space) and
U+3000 (ideographic space). -/
def rustIsWhitespace (c : Char) : Bool :=
  decide ((0x9 ≤ c.toNat ∧ c.toNat ≤ 0xD) ∨ c.toNat = 0x20 ∨ c.toNat = 0x85 ∨
    c.toNat = 0xA0 ∨ c.toNat = 0x1680 ∨ (0x2000 ≤ c.toNat ∧ c.toNat ≤ 0x200A) ∨
    c.toNat = 0x2028 ∨ c.toNat = 0x2029 ∨ c.toNat = 0x202F ∨
    c.toNat = 0x205F ∨ c.toNat = 0x3000)

/-- Rust `str::split_whitespace`: the maximal non-empty pieces between
Unicode-whitespace characters. -/
def splitWhitespaceL (l : List Char) : List (List Char) :=
  (splitOnPred rustIsWhitespace l).filter (fun t => !t.isEmpty)

/-- Strip one trailing carriage return, if present
(Rust `str::strip_suffix('\r')` as used by `str::lines`). -/
def stripTrailingCR (l : List Char) : List Char :=
  if l.getLast? = some '\r' then l.dropLast else l

/-- Rust `str::lines`: split at every line feed; every piece that was
terminated by a line feed loses one trailing carriage return; a final
empty piece (input ended with a line feed, or input empty) is dropped,
and a final non-empty piece is kept verbatim. -/
def rustLines (l : List Char) : List (List Char) :=
  let segs := splitOnChar '\n' l
  segs.dropLast.map stripTrailingCR ++
    (if segs.getLastD [] = [] then [] else [segs.getLastD []])

/-- Models `Vec::join("\n")`: rejoin lines with line-feed separators. -/
def joinLines : List (List Char) → List Char
  | [] => []
  | [l] => l
  | l :: ls => l ++ '\n' :: joinLines ls

/-- Rust `str::split_once(": ")`: split at the first occurrence of the
two-character separator colon-space, or `none` when it does not occur. -/
def splitOnceColonSpace : List Char → Option (List Char × List Char)
  | [] => none
  | c :: rest =>
    if c == ':' && rest.head? == some ' ' then
      some ([], rest.drop 1)
    else
      match splitOnceColonSpace rest with
      | some kv => some (c :: kv.1, kv.2)
      | none => none

/-- Whether the two-character separator colon-space occurs in the list
(used to state the first-occurrence property of `splitOnceColonSpace`). -/
def containsColonSpace : List Char → Bool
  | [] => false
  | c :: rest => (c == ':' && rest.head? == some ' ') || containsColonSpace rest

/-- The header/body loop of `parse_request_with_body`: process the lines
after the request line.  A header line splits at the first colon-space
and is inserted (overwriting); a line with no separator is dropped; the
first empty line stops the loop and the remaining lines, rejoined with
line feeds, become the body.  If no empty line occurs the body stays
empty. -/
def parseHeaderLines : List (List Char) → HeaderMap → HeaderMap × String
  | [], acc => (acc, "")
  | l :: rest, acc =>
    if l = [] then
      (acc, String.mk (joinLines rest))
    else
      match splitOnceColonSpace l with
      | some kv => parseHeaderLines rest (hmInsert acc (String.mk kv.1) (String.mk kv.2))
      | none => parseHeaderLines rest acc

/-- Embeds `parse_request_with_body` (src/src/main.rs:67-90): split the buffer
into lines; the first two whitespace-separated tokens of the first line are
the method and the path (empty string when absent); the remaining lines
feed the header/body loop. -/
def parse_request_with_body (request : String) : Request :=
  let ls := rustLines request.toList
  let parts := splitWhitespaceL (ls.headD [])
  let hb := parseHeaderLines (ls.drop 1) []
  ⟨String.mk (parts.headD []), String.mk ((parts.drop 1).headD []), hb.1, hb.2⟩

/-- Rust `filepath.rsplit('.').next()`: the suffix after the last dot,
or the whole list when it contains no dot. -/
def rsplitDotNext (l : List Char) : List Char :=
  (l.reverse.takeWhile (fun c => c != '.')).reverse

/-- Embeds `get_mime_type` (src/src/main.rs:233-244): look the
`rsplit('.').next()` segment up in the fixed extension table. -/
def get_mime_type (filepath : String) : String :=
  let ext := String.mk (rsplitDotNext filepath.toList)
  if ext = "html" then "text/html"
  else if ext = "css" then "text/css"
  else if ext = "js" then "application/javascript"
  else if ext = "json" then "application/json"
  else if ext = "png" then "image/png"
  else if ext = "jpg" ∨ ext = "jpeg" then "image/jpeg"
  else if ext = "txt" then "text/plain"
  else "application/octet-stream"

/-- Modelled from the spec: the extension-to-content-type table of the
MIME Resolver contract, as a function of the already-extracted key
(case-sensitive, exact; any other key gives the octet-stream default). -/
def mimeMapping (ext : String) : String :=
  if ext = "html" then "text/html"
  else if ext = "css" then "text/css"
  else if ext = "js" then "application/javascript"
  else if ext = "json" then "application/json"
  else if ext = "png" then "image/png"
  else if ext = "jpg" ∨ ext = "jpeg" then "image/jpeg"
  else if ext = "txt" then "text/plain"
  else "application/octet-stream"

/-- Embeds `serve_file` (src/src/main.rs:147-167).  `fs filepath` models
`fs::read_to_string(filepath)`; the source matches `Err(_)` uniformly,
so every failure cause is `none`. -/
def serve_file (fs : String → Option String) (filepath : String) : Response :=
  match fs filepath with
  | some content =>
    ⟨200, "OK", get_mime_type filepath, content.utf8ByteSize, content⟩
  | none =>
    ⟨404, "NOT FOUND", "text/plain", "404 File Not Found".utf8ByteSize, "404 File Not Found"⟩

/-- Embeds `handle_post` (src/src/main.rs:178-224).  Note that on the two 200
branches the source writes `body.len()` — the length of the **request**
body — into `Content-Length`, while the response body it interpolates is
the longer `"Received JSON: {body}"` / `"Received form data: {body}"`. -/
def handle_post (path : String) (headers : HeaderMap) (body : String) : Response :=
  if path = "/submit" then
    match hmGet headers "Content-Type" with
    | some ct =>
      if ct = "application/json" then
        ⟨200, "OK", "text/plain", body.utf8ByteSize, "Received JSON: " ++ body⟩
      else if ct = "application/x-www-form-urlencoded" then
        ⟨200, "OK", "text/plain", body.utf8ByteSize, "Received form data: " ++ body⟩
      else
        ⟨415, "UNSUPPORTED MEDIA TYPE", "text/plain",
          "Unsupported Content-Type".utf8ByteSize, "Unsupported Content-Type"⟩
    | none =>
      ⟨415, "UNSUPPORTED MEDIA TYPE", "text/plain",
        "Unsupported Content-Type".utf8ByteSize, "Unsupported Content-Type"⟩
  else
    ⟨404, "NOT FOUND", "text/plain", "404 Not Found".utf8ByteSize, "404 Not Found"⟩

/-- Embeds `route_request` (src/src/main.rs:102-138).  The Rust `match` on
`method` with literal arms and a guarded path arm is an if-chain;
`&path[1..]` is the one-leading-character strip (the path is known to
start with the ASCII slash). -/
def route_request (fs : String → Option String) (method path : String)
    (headers : HeaderMap) (body : String) : Response :=
  if method = "GET" then
    if path = "/" then
      ⟨200, "OK", "text/plain", "Welcome to the homepage!".utf8ByteSize,
        "Welcome to the homepage!"⟩
    else if ("/static/".toList).isPrefixOf path.toList then
      serve_file fs (String.mk (path.toList.drop 1))
    else
      ⟨404, "NOT FOUND", "text/plain", "404 Not Found".utf8ByteSize, "404 Not Found"⟩
  else if method = "POST" then
    handle_post path headers body
  else
    ⟨405, "METHOD NOT ALLOWED", "text/plain", "405 Method Not Allowed".utf8ByteSize,
      "405 Method Not Allowed"⟩

theorem mk_toList (s : String) : String.mk s.toList = s := rfl

theorem toList_append (s t : String) : (s ++ t).toList = s.toList ++ t.toList := rfl

theorem takeWhile_ne_dot_of_not_mem (l : List Char) (h : '.' ∉ l) :
    l.takeWhile (fun c => c != '.') = l := by
  induction l with
  | nil => rfl
  | cons c cs ih =>
    rw [List.mem_cons, not_or] at h
    have hc : (c != '.') = true := by
      simp only [bne_iff_ne, ne_eq]
      exact fun e => h.1 e.symm
    rw [List.takeWhile_cons, hc]
    simp [ih h.2]

theorem takeWhile_append_dot (e r : List Char) (h : '.' ∉ e) :
    (e ++ '.' :: r).takeWhile (fun c => c != '.') = e := by
  induction e with
  | nil => simp [List.takeWhile_cons]
  | cons c cs ih =>
    rw [List.mem_cons, not_or] at h
    have hc : (c != '.') = true := by
      simp only [bne_iff_ne, ne_eq]
      exact fun e => h.1 e.symm
    rw [List.cons_append, List.takeWhile_cons, hc]
    simp [ih h.2]

theorem rsplitDotNext_of_not_mem (l : List Char) (h : '.' ∉ l) :
    rsplitDotNext l = l := by
  unfold rsplitDotNext
  rw [takeWhile_ne_dot_of_not_mem _ (by simpa using h), List.reverse_reverse]

theorem rsplitDotNext_append (p e : List Char) (h : '.' ∉ e) :
    rsplitDotNext (p ++ '.' :: e) = e := by
  unfold rsplitDotNext
  have e1 : (p ++ '.' :: e).reverse = e.reverse ++ '.' :: p.reverse := by
    rw [List.reverse_append, List.reverse_cons]
    simp
  rw [e1, takeWhile_append_dot _ _ (by simpa using h), List.reverse_reverse]

theorem get_mime_type_eq (p : String) :
    get_mime_type p = mimeMapping (String.mk (rsplitDotNext p.toList)) := rfl

theorem parseHeaderLines_body_after_empty (suf : List (List Char)) :
    ∀ (pre : List (List Char)) (m : HeaderMap), [] ∉ pre →
      (parseHeaderLines (pre ++ [] :: suf) m).2 = String.mk (joinLines suf) := by
  intro pre
  induction pre with
  | nil =>
    intro m _
    simp [parseHeaderLines]
  | cons l pre ih =>
    intro m h
    rw [List.mem_cons, not_or] at h
    have hl : l ≠ [] := fun e => h.1 e.symm
    rw [List.cons_append]
    unfold parseHeaderLines
    rw [if_neg hl]
    cases hsp : splitOnceColonSpace l with
    | some kv => exact ih _ h.2
    | none => exact ih m h.2

theorem parseHeaderLines_body_of_no_empty :
    ∀ (ls : List (List Char)) (m : HeaderMap), [] ∉ ls →
      (parseHeaderLines ls m).2 = "" := by
  intro ls
  induction ls with
  | nil =>
    intro m _
    rfl
  | cons l ls ih =>
    intro m h
    rw [List.mem_cons, not_or] at h
    have hl : l ≠ [] := fun e => h.1 e.symm
    unfold parseHeaderLines
    rw [if_neg hl]
    cases hsp : splitOnceColonSpace l with
    | some kv => exact ih _ h.2
    | none => exact ih m h.2

theorem splitOnceColonSpace_append (v : List Char) :
    ∀ (k : List Char), containsColonSpace k = false →
      splitOnceColonSpace (k ++ ':' :: ' ' :: v) = some (k, v) := by
  intro k
  induction k with
  | nil =>
    intro _
    simp [splitOnceColonSpace]
  | cons c k ih =>
    intro h
    have h' : (c == ':' && k.head? == some ' ') = false ∧ containsColonSpace k = false := by
      have : ((c == ':' && k.head? == some ' ') || containsColonSpace k) = false := h
      simpa [Bool.or_eq_false_iff] using this
    have hcond : (c == ':' && (k ++ ':' :: ' ' :: v).head? == some ' ') = false := by
      cases k with
      | nil => simp
      | cons d k2 => simpa using h'.1
    rw [List.cons_append]
    unfold splitOnceColonSpace
    rw [hcond]
    simp only [Bool.false_eq_true, if_false]
    rw [ih h'.2]

/-- Claim C1 (code bug): at the request POST /submit with header
Content-Type: application/json and body of 7 bytes, the router writes
Content-Length 7 but the response body is 22 bytes long. -/
theorem post_content_length_bug :
    (route_request (fun _ => none) "POST" "/submit"
      [("Content-Type", "application/json")] "\x7b\x22a\x22:1\x7d").content_length = 7 ∧
    (route_request (fun _ => none) "POST" "/submit"
      [("Content-Type", "application/json")] "\x7b\x22a\x22:1\x7d").body.utf8ByteSize = 22 ∧
    (route_request (fun _ => none) "POST" "/submit"
      [("Content-Type", "application/json")] "\x7b\x22a\x22:1\x7d").content_length ≠
      (route_request (fun _ => none) "POST" "/submit"
        [("Content-Type", "application/json")] "\x7b\x22a\x22:1\x7d").body.utf8ByteSize := by
  decide

/-- Claim C2, counterexample: the path "html" contains no dot, yet the
resolver returns text/html, not application/octet-stream. -/
theorem get_mime_type_no_extension_cex :
    ('.' ∉ "html".toList) ∧
    get_mime_type "html" = "text/html" ∧
    get_mime_type "html" ≠ "application/octet-stream" := by
  decide

/-- Claim C2 (amended): the resolver maps the substring after the last
dot through the fixed table; when the path has no dot at all, the whole
path is used as the lookup key. -/
theorem get_mime_type_amended (p ext : String) :
    ('.' ∉ p.toList → get_mime_type p = mimeMapping p) ∧
    ('.' ∉ ext.toList → get_mime_type (p ++ "." ++ ext) = mimeMapping ext) := by
  constructor
  · intro h
    rw [get_mime_type_eq, rsplitDotNext_of_not_mem _ h, mk_toList]
  · intro h
    rw [get_mime_type_eq]
    have e1 : (p ++ "." ++ ext).toList = p.toList ++ '.' :: ext.toList := by
      rw [toList_append, toList_append]
      have e2 : (".".toList : List Char) = ['.'] := rfl
      rw [e2, List.append_assoc]
      rfl
    rw [e1, rsplitDotNext_append _ _ h, mk_toList]

theorem get_mime_type_amended_witness :
    get_mime_type "README" = mimeMapping "README" ∧
    get_mime_type ("style" ++ "." ++ "css") = mimeMapping "css" :=
  ⟨(get_mime_type_amended "README" "css").1 (by decide),
   (get_mime_type_amended "style" "css").2 (by decide)⟩

/-- Claim C3: POST to anything but /submit is 404; POST /submit echoes
the raw body with status 200 when the exact header Content-Type is
application/json or application/x-www-form-urlencoded, and answers 415
for any other value or when the header is absent. -/
theorem handle_post_spec (path : String) (hs : HeaderMap) (body : String) :
    (path ≠ "/submit" → (handle_post path hs body).code = 404) ∧
    (hmGet hs "Content-Type" = some "application/json" →
      (handle_post "/submit" hs body).code = 200 ∧
      ∃ s t, (handle_post "/submit" hs body).body = s ++ body ++ t) ∧
    (hmGet hs "Content-Type" = some "application/x-www-form-urlencoded" →
      (handle_post "/submit" hs body).code = 200 ∧
      ∃ s t, (handle_post "/submit" hs body).body = s ++ body ++ t) ∧
    (∀ ct, hmGet hs "Content-Type" = some ct → ct ≠ "application/json" →
      ct ≠ "application/x-www-form-urlencoded" →
      (handle_post "/submit" hs body).code = 415) ∧
    (hmGet hs "Content-Type" = none → (handle_post "/submit" hs body).code = 415) := by
  refine ⟨?_, ?_, ?_, ?_, ?_⟩
  · intro h
    simp [handle_post, h]
  · intro h
    refine ⟨by simp [handle_post, h], "Received JSON: ", "", by simp [handle_post, h]⟩
  · intro h
    refine ⟨by simp [handle_post, h], "Received form data: ", "", by simp [handle_post, h]⟩
  · intro ct h h1 h2
    simp [handle_post, h, h1, h2]
  · intro h
    simp [handle_post, h]

theorem handle_post_spec_witness :
    (handle_post "/other" [] "").code = 404 ∧
    (handle_post "/submit" [("Content-Type", "application/json")] "hi").code = 200 ∧
    (handle_post "/submit" [("Content-Type", "text/plain")] "hi").code = 415 ∧
    (handle_post "/submit" [] "hi").code = 415 :=
  ⟨(handle_post_spec "/other" [] "").1 (by decide),
   ((handle_post_spec "/submit" [("Content-Type", "application/json")] "hi").2.1 (by decide)).1,
   (handle_post_spec "/submit" [("Content-Type", "text/plain")] "hi").2.2.2.1
     "text/plain" (by decide) (by decide) (by decide),
   (handle_post_spec "/submit" [] "hi").2.2.2.2 (by decide)⟩

/-- Claim C4: the router is a total function; GET / is the 200 homepage
with the exact welcome body, GET on a path starting with the static segment delegates
to the static file server with one leading character stripped, GET on
any other path is 404, POST delegates to the POST handler, and every
other method is 405. -/
theorem route_request_spec (fs : String → Option String) (method path : String)
    (hs : HeaderMap) (body : String) :
    ((route_request fs "GET" "/" hs body).code = 200 ∧
      (route_request fs "GET" "/" hs body).body = "Welcome to the homepage!") ∧
    (path ≠ "/" → ("/static/".toList).isPrefixOf path.toList = true →
      route_request fs "GET" path hs body = serve_file fs (String.mk (path.toList.drop 1))) ∧
    (path ≠ "/" → ("/static/".toList).isPrefixOf path.toList = false →
      (route_request fs "GET" path hs body).code = 404) ∧
    (route_request fs "POST" path hs body = handle_post path hs body) ∧
    (method ≠ "GET" → method ≠ "POST" →
      (route_request fs method path hs body).code = 405) := by
  refine ⟨⟨by simp [route_request], by simp [route_request]⟩, ?_, ?_, ?_, ?_⟩
  · intro h1 h2
    have h2' : ['/', 's', 't', 'a', 't', 'i', 'c', '/'] <+: path.data :=
      List.isPrefixOf_iff_prefix.mp h2
    simp [route_request, h1, h2']
  · intro h1 h2
    have h2' : ¬ (['/', 's', 't', 'a', 't', 'i', 'c', '/'] <+: path.data) := fun hp =>
      Bool.false_ne_true (h2.symm.trans (List.isPrefixOf_iff_prefix.mpr hp))
    simp [route_request, h1, h2']
  · simp [route_request]
  · intro h1 h2
    simp [route_request, h1, h2]

theorem route_request_spec_witness :
    (route_request (fun _ => none) "GET" "/" [] "").code = 200 ∧
    route_request (fun _ => none) "GET" "/static/a.css" [] "" =
      serve_file (fun _ => none) (String.mk ("/static/a.css".toList.drop 1)) ∧
    (route_request (fun _ => none) "GET" "/nope" [] "").code = 404 ∧
    (route_request (fun _ => none) "DELETE" "/anything" [] "").code = 405 :=
  ⟨((route_request_spec (fun _ => none) "DELETE" "/x" [] "").1).1,
   (route_request_spec (fun _ => none) "DELETE" "/static/a.css" [] "").2.1 (by decide) (by decide),
   (route_request_spec (fun _ => none) "DELETE" "/nope" [] "").2.2.1 (by decide) (by decide),
   (route_request_spec (fun _ => none) "DELETE" "/anything" [] "").2.2.2.2 (by decide) (by decide)⟩

/-- Claim C5: a successful read yields 200 with the MIME-resolved
content type and the file contents as body; any failed read yields 404
with the exact body 404 File Not Found. -/
theorem serve_file_spec (fs : String → Option String) (p c : String) :
    (fs p = some c →
      (serve_file fs p).code = 200 ∧
      (serve_file fs p).content_type = get_mime_type p ∧
      (serve_file fs p).body = c) ∧
    (fs p = none →
      (serve_file fs p).code = 404 ∧
      (serve_file fs p).body = "404 File Not Found") := by
  constructor
  · intro h
    simp [serve_file, h]
  · intro h
    simp [serve_file, h]

theorem serve_file_spec_witness :
    (serve_file (fun q => if q = "static/style.css" then some "body\x7b\x7d" else none)
      "static/style.css").content_type = "text/css" ∧
    (serve_file (fun _ => none) "static/missing.txt").body = "404 File Not Found" :=
  ⟨(((serve_file_spec (fun q => if q = "static/style.css" then some "body\x7b\x7d" else none)
      "static/style.css" "body\x7b\x7d").1 (by decide)).2.1).trans (by decide),
   ((serve_file_spec (fun _ => none) "static/missing.txt" "").2 (by decide)).2⟩

/-- Claim C6: the parsed body is exactly the lines after the first empty
line, rejoined with line-feed separators; when no empty line occurs the
body is empty even if lines follow the request line. -/
theorem parse_body_spec (request : String) (pre suf : List (List Char)) :
    ((rustLines request.toList).drop 1 = pre ++ [] :: suf → [] ∉ pre →
      (parse_request_with_body request).body = String.mk (joinLines suf)) ∧
    ([] ∉ (rustLines request.toList).drop 1 →
      (parse_request_with_body request).body = "") := by
  constructor
  · intro hdec hpre
    show (parseHeaderLines ((rustLines request.toList).drop 1) []).2 = _
    rw [hdec]
    exact parseHeaderLines_body_after_empty suf pre [] hpre
  · intro hne
    show (parseHeaderLines ((rustLines request.toList).drop 1) []).2 = ""
    exact parseHeaderLines_body_of_no_empty _ [] hne

theorem parse_body_spec_witness :
    (parse_request_with_body "GET / HTTP/1.1\nHost: x\n\nhello\nworld").body = "hello\nworld" ∧
    (parse_request_with_body "GET / HTTP/1.1\nran out of buf").body = "" :=
  ⟨((parse_body_spec "GET / HTTP/1.1\nHost: x\n\nhello\nworld"
      ["Host: x".toList] ["hello".toList, "world".toList]).1
      (by decide) (by decide)).trans (by decide),
   (parse_body_spec "GET / HTTP/1.1\nran out of buf" [] []).2 (by decide)⟩

/-- Claim C7: parsing is total — every input yields a quadruple — and
the empty input yields empty method, empty path, no headers and an
empty body. -/
theorem parse_request_total (s : String) :
    (∃ m p hs b, parse_request_with_body s = ⟨m, p, hs, b⟩) ∧
    parse_request_with_body "" = ⟨"", "", [], ""⟩ :=
  ⟨⟨_, _, _, _, rfl⟩, by decide⟩

/-- Claim C8: a header line splits at the first occurrence of the
colon-space separator; lines with no separator are dropped; keys are
stored case-sensitively as received; a duplicate key keeps the value of
the last occurrence. -/
theorem header_line_spec (key val l : List Char) (ls : List (List Char)) (m : HeaderMap) :
    (containsColonSpace key = false →
      splitOnceColonSpace (key ++ ':' :: ' ' :: val) = some (key, val)) ∧
    (l ≠ [] → splitOnceColonSpace l = none →
      parseHeaderLines (l :: ls) m = parseHeaderLines ls m) ∧
    hmGet (parse_request_with_body "GET / HTTP/1.1\nDup: a\nDup: b\n\n").headers "Dup" =
      some "b" ∧
    hmGet (parse_request_with_body "GET / HTTP/1.1\ncontent-type: x\n\n").headers
      "Content-Type" = none ∧
    hmGet (parse_request_with_body "GET / HTTP/1.1\ncontent-type: x\n\n").headers
      "content-type" = some "x" := by
  refine ⟨fun h => splitOnceColonSpace_append val key h, ?_, by decide, by decide, by decide⟩
  intro hl hnone
  conv_lhs => rw [parseHeaderLines]
  rw [if_neg hl, hnone]

theorem header_line_spec_witness :
    splitOnceColonSpace ("Host".toList ++ ':' :: ' ' :: "x: y".toList) =
      some ("Host".toList, "x: y".toList) ∧
    parseHeaderLines ["noseparator".toList] [] = parseHeaderLines [] [] :=
  ⟨(header_line_spec "Host".toList "x: y".toList ['a'] [] []).1 (by decide),
   (header_line_spec "Host".toList "x: y".toList "noseparator".toList [] []).2.1
     (by decide) (by decide)⟩

/-- Claim C9: the router is deterministic — its output depends only on
the method, path, headers, body and the contents of the filesystem. -/
theorem route_request_deterministic (fs1 fs2 : String → Option String)
    (m p : String) (hs : HeaderMap) (b : String)
    (h : ∀ q, fs1 q = fs2 q) :
    route_request fs1 m p hs b = route_request fs2 m p hs b := by
  have e : fs1 = fs2 := funext h
  rw [e]

theorem route_request_deterministic_witness :
    route_request (fun _ => none) "GET" "/static/a.txt" [] "" =
      route_request (fun q => if q = q then none else some "x") "GET" "/static/a.txt" [] "" :=
  route_request_deterministic (fun _ => none) (fun q => if q = q then none else some "x")
    "GET" "/static/a.txt" [] "" (fun q => by simp)

/-- Claim C10: an input whose first line has no whitespace-separated
tokens (in particular the empty input) parses to an empty method, which
matches no route, so the router answers 405. -/
theorem empty_request_405 (fs : String → Option String) (s : String)
    (h : splitWhitespaceL ((rustLines s.toList).headD []) = []) :
    (parse_request_with_body s).method = "" ∧
    (route_request fs (parse_request_with_body s).method (parse_request_with_body s).path
      (parse_request_with_body s).headers (parse_request_with_body s).body).code = 405 := by
  have hm : (parse_request_with_body s).method = "" := by
    show String.mk ((splitWhitespaceL ((rustLines s.toList).headD [])).headD []) = ""
    rw [h]
    rfl
  refine ⟨hm, ?_⟩
  rw [hm]
  simp [route_request]

theorem empty_request_405_witness :
    ((parse_request_with_body "").method = "" ∧
      (route_request (fun _ => none) (parse_request_with_body "").method
        (parse_request_with_body "").path (parse_request_with_body "").headers
        (parse_request_with_body "").body).code = 405) ∧
    ((parse_request_with_body "\x0B\x0C \x09").method = "" ∧
      (route_request (fun _ => none) (parse_request_with_body "\x0B\x0C \x09").method
        (parse_request_with_body "\x0B\x0C \x09").path
        (parse_request_with_body "\x0B\x0C \x09").headers
        (parse_request_with_body "\x0B\x0C \x09").body).code = 405) :=
  ⟨empty_request_405 (fun _ => none) "" (by decide),
   empty_request_405 (fun _ => none) "\x0B\x0C \x09" (by decide)⟩
